import Mathlib

/-!
A shallow embedding of the leptos `ErrorBoundary` core
(`src/leptos/src/error_boundary.rs`) and proofs about its behaviour.

Errors, error identities and boundary identities are opaque payloads; we
model them as natural numbers.  The `FxHashMap` backing `Errors` is
modelled as an association list with hash-map insert/remove semantics
(insert replaces the value when the key is present, otherwise adds the
pair; remove drops the pair with the key).  Mountable view states are
modelled by their mounted/unmounted flags together with a trace of the
mount-interface calls performed, since the concrete DOM backend is an
external collaborator.
-/

namespace LeptosEB

abbrev ErrorId := Nat
abbrev ErrorVal := Nat
abbrev SerializedDataId := Nat

/-- Embeds `Errors` (error_boundary.rs lines 649-686): a map from
`ErrorId` to `Error`, as an association list with unique keys. -/
structure Errors where
  entries : List (ErrorId × ErrorVal)
deriving Repr, DecidableEq

/-- Embeds `Errors::is_empty`. -/
def Errors.isEmpty (e : Errors) : Bool :=
  e.entries.isEmpty

def Errors.containsKey (e : Errors) (k : ErrorId) : Bool :=
  e.entries.any (fun p => p.1 == k)

/-- Embeds `Errors::insert` (`HashMap::insert`): replaces the value if the
key is present, otherwise appends the pair. -/
def Errors.insert (e : Errors) (k : ErrorId) (v : ErrorVal) : Errors :=
  if e.containsKey k then
    ⟨e.entries.map (fun p => if p.1 == k then (k, v) else p)⟩
  else
    ⟨e.entries ++ [(k, v)]⟩

/-- Embeds `Errors::remove` (`HashMap::remove`): drops the entry with the
given key, if any. -/
def Errors.remove (e : Errors) (k : ErrorId) : Errors :=
  ⟨e.entries.filter (fun p => p.1 != k)⟩

/-- Inserting each thrown `(id, error)` pair in order, as the error hook
does during a serialization pass. -/
def Errors.insertAll (e : Errors) (l : List (ErrorId × ErrorVal)) : Errors :=
  l.foldl (fun m p => m.insert p.1 p.2) e

def Errors.empty : Errors := ⟨[]⟩

/-- Embeds the relevant state of the `SharedContext` collaborator: a fresh
identity counter (`next_id`) and the errors registered for server-to-client
handoff (`register_error`). -/
structure SharedContext where
  counter : Nat
  registered : List (SerializedDataId × ErrorId × ErrorVal)
deriving Repr, DecidableEq

/-- `sc.next_id()`: returns a fresh identity and the advanced generator. -/
def SharedContext.nextId (sc : SharedContext) : Nat × SharedContext :=
  (sc.counter, ⟨sc.counter + 1, sc.registered⟩)

/-- `sc.register_error(boundary_id, error_id, error)`. -/
def SharedContext.registerError (sc : SharedContext) (bid : SerializedDataId)
    (eid : ErrorId) (err : ErrorVal) : SharedContext :=
  ⟨sc.counter, sc.registered ++ [(bid, eid, err)]⟩

/-- The default `ErrorId` (`ErrorId::default()`), used when no shared
context supplies an identity generator. -/
def defaultErrorId : ErrorId := 0

/-- Embeds `ErrorBoundaryErrorHook` (lines 595-600): the reactive error
registry, the boundary identity, and the optional cross-boundary
serialization context captured at construction. -/
structure ErrorBoundaryErrorHook where
  errors : Errors
  id : SerializedDataId
  sharedContext : Option SharedContext
deriving Repr, DecidableEq

/-- Embeds `ErrorBoundaryErrorHook::new` (lines 602-615): the registry is
seeded by collecting the initial errors into a fresh map. -/
def ErrorBoundaryErrorHook.new (id : SerializedDataId)
    (initialErrors : List (ErrorId × ErrorVal))
    (currentSharedContext : Option SharedContext) : ErrorBoundaryErrorHook :=
  ⟨Errors.empty.insertAll initialErrors, id, currentSharedContext⟩

/-- The outcome of one `throw` call: the returned identity, the updated
hook (registry and forwarding context), and the updated current scope. -/
structure ThrowResult where
  key : ErrorId
  hook : ErrorBoundaryErrorHook
  scope : Option SharedContext
deriving Repr, DecidableEq

/-- Embeds `ErrorBoundaryErrorHook::throw` (lines 617-639): obtain a key
from the current scope's shared context if one exists (else the default
id), forward `(boundary_id, key, error)` to the hook's serialization
context when present, insert `(key, error)` into the registry, and return
the key. -/
def ErrorBoundaryErrorHook.throw (hook : ErrorBoundaryErrorHook)
    (currentScope : Option SharedContext) (error : ErrorVal) : ThrowResult :=
  let key : ErrorId :=
    match currentScope with
    | some sc => sc.nextId.1
    | none => defaultErrorId
  let scopeAfter : Option SharedContext :=
    match currentScope with
    | some sc => some sc.nextId.2
    | none => none
  let hookAfterSc : ErrorBoundaryErrorHook :=
    match hook.sharedContext with
    | some sc => ⟨hook.errors, hook.id, some (sc.registerError hook.id key error)⟩
    | none => hook
  ⟨key, ⟨hookAfterSc.errors.insert key error, hookAfterSc.id, hookAfterSc.sharedContext⟩,
    scopeAfter⟩

/-- Embeds `ErrorBoundaryErrorHook::clear` (lines 641-645): removes the
entry for the given id from the registry. -/
def ErrorBoundaryErrorHook.clear (hook : ErrorBoundaryErrorHook)
    (id : ErrorId) : ErrorBoundaryErrorHook :=
  ⟨hook.errors.remove id, hook.id, hook.sharedContext⟩

/-! ## The built view state and its transition step

`ErrorBoundaryViewState` (lines 142-146) holds the children's built state
always and the fallback's built state optionally.  The concrete DOM
backend is external; a built sub-state is modelled by its mounted flag
(for the fallback, together with the registry snapshot its view was built
from), and each mount-interface call performed by the boundary is recorded
in a trace. -/

inductive Side where
  | childrenSide
  | fallbackSide
deriving Repr, DecidableEq

/-- One call on the mount interface, as performed by the error boundary:
building the children or the fallback, `a.insert_before_this(b)` (which
mounts `b` at `a`'s position), `mount`, and `unmount`. -/
inductive MCall where
  | buildChildrenCall
  | buildFallbackCall
  | spliceBefore (this child : Side)
  | mountCall (s : Side)
  | unmountCall (s : Side)
deriving Repr, DecidableEq

/-- Whether a call mounts something into the tree (`mount`, or being the
`child` argument of `insert_before_this`). -/
def MCall.isMount : MCall → Bool
  | MCall.mountCall _ => true
  | MCall.spliceBefore _ _ => true
  | _ => false

/-- Whether a call unmounts something from the tree. -/
def MCall.isUnmount : MCall → Bool
  | MCall.unmountCall _ => true
  | _ => false

/-- The fallback's built state: the registry (signal) it was built from,
and whether it is currently mounted. -/
structure FalState where
  builtFrom : Errors
  mounted : Bool
deriving Repr, DecidableEq

/-- Embeds `ErrorBoundaryViewState` (lines 142-146): children always
present (tracked by their mounted flag), fallback optional. -/
structure ErrorBoundaryViewState where
  childMounted : Bool
  fallback : Option FalState
deriving Repr, DecidableEq

/-- The side the `Mountable` impl (lines 148-188) dispatches to: the
fallback when present, the children otherwise. -/
def ErrorBoundaryViewState.target (st : ErrorBoundaryViewState) : Side :=
  match st.fallback with
  | some _ => Side.fallbackSide
  | none => Side.childrenSide

/-- Embeds `Mountable::unmount` for `ErrorBoundaryViewState`
(lines 153-159): unmount the fallback if present, else the children. -/
def ErrorBoundaryViewState.unmountOp (st : ErrorBoundaryViewState) :
    ErrorBoundaryViewState × MCall :=
  match st.fallback with
  | some f => (⟨st.childMounted, some ⟨f.builtFrom, false⟩⟩,
      MCall.unmountCall Side.fallbackSide)
  | none => (⟨false, none⟩, MCall.unmountCall Side.childrenSide)

/-- Embeds `Mountable::mount` for `ErrorBoundaryViewState`
(lines 161-171): mount the fallback if present, else the children. -/
def ErrorBoundaryViewState.mountOp (st : ErrorBoundaryViewState) :
    ErrorBoundaryViewState × MCall :=
  match st.fallback with
  | some f => (⟨st.childMounted, some ⟨f.builtFrom, true⟩⟩,
      MCall.mountCall Side.fallbackSide)
  | none => (⟨true, none⟩, MCall.mountCall Side.childrenSide)

/-- Embeds `Mountable::insert_before_this` for `ErrorBoundaryViewState`
(lines 173-179): delegates to the fallback if present, else the
children. -/
def ErrorBoundaryViewState.insertBeforeThisOp (st : ErrorBoundaryViewState) : Side :=
  match st.fallback with
  | some _ => Side.fallbackSide
  | none => Side.childrenSide

/-- Embeds `Mountable::elements` for `ErrorBoundaryViewState`
(lines 181-187): delegates to the fallback if present, else the
children. -/
def ErrorBoundaryViewState.elementsOp (st : ErrorBoundaryViewState) : Side :=
  match st.fallback with
  | some _ => Side.fallbackSide
  | none => Side.childrenSide

/-- Exactly one of the child state and the fallback state is visibly
mounted. -/
def ErrorBoundaryViewState.exclusivelyMounted (st : ErrorBoundaryViewState) : Bool :=
  match st.fallback with
  | some f => f.mounted && !st.childMounted
  | none => st.childMounted

/-- Embeds the `prev = Some(state)` branch of the `RenderEffect` closure
shared by `build` (lines 207-230), `hydrate` (lines 470-493) and
`hydrate_async` (lines 554-580): the four-row transition on
`(errors_empty, state.fallback)`.  `errs` is the registry read both by the
`errors_empty` memo and, when a fallback must be built, by the fallback
function.  Returns the new state together with the trace of mount
interface calls. -/
def transitionStep (errs : Errors) (st : ErrorBoundaryViewState) :
    ErrorBoundaryViewState × List MCall :=
  match errs.isEmpty, st.fallback with
  | true, some _ =>
      -- fallback.insert_before_this(children); fallback.unmount(); fallback = None
      (⟨true, none⟩,
        [MCall.spliceBefore Side.fallbackSide Side.childrenSide,
         MCall.unmountCall Side.fallbackSide])
  | false, none =>
      -- fallback = Some(build fallback); children.insert_before_this(fallback);
      -- children.unmount()
      (⟨false, some ⟨errs, true⟩⟩,
        [MCall.buildFallbackCall,
         MCall.spliceBefore Side.childrenSide Side.fallbackSide,
         MCall.unmountCall Side.childrenSide])
  | _, _ => (st, [])

/-- Embeds `Render::build` (lines 198-241): children are built first
(line 201); the first effect run constructs the state, building the
fallback exactly when the registry is non-empty (lines 231-238).  Nothing
is mounted yet.  Returns the state and the trace of build calls. -/
def buildRun (errs : Errors) : ErrorBoundaryViewState × List MCall :=
  (⟨false, if errs.isEmpty then none else some ⟨errs, false⟩⟩,
   MCall.buildChildrenCall :: if errs.isEmpty then [] else [MCall.buildFallbackCall])

/-- Embeds `Render::rebuild` (lines 243-248): a fresh state is produced by
`self.build()`, the old state's `insert_before_this` mounts the new state
at the old position, and the old state is unmounted.  Returns the new
(current) state, the discarded old state, and the trace. -/
def rebuildRun (errs : Errors) (old : ErrorBoundaryViewState) :
    ErrorBoundaryViewState × ErrorBoundaryViewState × List MCall :=
  let built := buildRun errs
  let newState := built.1.mountOp.1
  let oldAfter := old.unmountOp.1
  (newState, oldAfter,
    built.2 ++ [built.1.mountOp.2, old.unmountOp.2])

/-- Folding a sequence of reactive re-runs (one registry snapshot per
run) through the transition step. -/
def runTransitions (st : ErrorBoundaryViewState) (updates : List Errors) :
    ErrorBoundaryViewState :=
  updates.foldl (fun s e => (transitionStep e s).1) st

/-! ## Hydration -/

/-- How a sub-state was produced during hydration: attached to the
existing markup, or freshly built off-DOM. -/
inductive BuildMode where
  | hydratedFromMarkup
  | builtOffDom
deriving Repr, DecidableEq

structure HydrateState where
  childMode : BuildMode
  fallbackMode : Option BuildMode
deriving Repr, DecidableEq

/-- Embeds the `prev = None` branch of `RenderHtml::hydrate`
(lines 494-512): if the registry is empty the children are hydrated
against the markup and no fallback exists; otherwise the children are
freshly built and the fallback is hydrated against the markup. -/
def hydrateInitial (errs : Errors) : HydrateState :=
  if errs.isEmpty then
    ⟨BuildMode.hydratedFromMarkup, none⟩
  else
    ⟨BuildMode.builtOffDom, some BuildMode.hydratedFromMarkup⟩

/-- Embeds the `initial` future of `RenderHtml::hydrate_async`
(lines 527-547): the same decision, made after the registry state has
been resolved asynchronously. -/
def hydrateAsyncInitial (errs : Errors) : HydrateState :=
  if errs.isEmpty then
    ⟨BuildMode.hydratedFromMarkup, none⟩
  else
    ⟨BuildMode.builtOffDom, some BuildMode.hydratedFromMarkup⟩

/-! ## HTML serialization -/

/-- What the children contribute to one synchronous serialization pass: the
HTML they append, and the `(id, error)` pairs thrown into the registry
while they serialize. -/
structure ChildSyncHtml where
  html : String
  thrown : List (ErrorId × ErrorVal)
deriving Repr, DecidableEq

/-- Embeds `RenderHtml::to_html_with_buf` (lines 325-358): the children are
serialized into a fresh scratch buffer; afterwards, if the registry is
empty the scratch buffer is appended to the caller's buffer, otherwise the
fallback is serialized into the caller's buffer instead.  Returns the
caller's buffer and the registry after the pass. -/
def toHtmlWithBuf (child : ChildSyncHtml) (fallbackHtml : String)
    (errs : Errors) (buf : String) : String × Errors :=
  let newBuf := child.html
  let errsAfter := errs.insertAll child.thrown
  if errsAfter.isEmpty then
    (buf ++ newBuf, errsAfter)
  else
    (buf ++ fallbackHtml, errsAfter)

/-- Modelled from the spec: `StreamChunk` from the `tachys::ssr` module,
whose source is not among the provided files (only its use sites are).
A chunk is resolved text, a pending async sub-sequence, or an
out-of-order-completable sub-sequence; a pending future is represented in
this pure embedding by the chunk list it resolves to. -/
inductive StreamChunk where
  | sync (text : String)
  | async (chunks : List StreamChunk)
  | outOfOrder (chunks : List StreamChunk)
deriving Repr

/-- Modelled from the spec: `StreamBuilder` from `tachys::ssr` (source not
provided): an append-only ordered sequence of chunks. -/
structure StreamBuilder where
  chunks : List StreamChunk
deriving Repr

/-- Modelled from the spec: `StreamBuilder::push_sync` appends a resolved
text chunk. -/
def StreamBuilder.pushSync (b : StreamBuilder) (text : String) : StreamBuilder :=
  ⟨b.chunks ++ [StreamChunk.sync text]⟩

/-- Modelled from the spec: `StreamBuilder::push_async` reserves a slot at
the current position for a pending chunk sequence. -/
def StreamBuilder.pushAsync (b : StreamBuilder) (resolved : List StreamChunk) :
    StreamBuilder :=
  ⟨b.chunks ++ [StreamChunk.async resolved]⟩

/-- Modelled from the spec: `StreamBuilder::append` concatenates two
buffers, preserving relative order. -/
def StreamBuilder.append (b other : StreamBuilder) : StreamBuilder :=
  ⟨b.chunks ++ other.chunks⟩

/-- Modelled from the spec: `StreamBuilder::take_chunks` drains the
buffer. -/
def StreamBuilder.takeChunks (b : StreamBuilder) : List StreamChunk :=
  b.chunks

/-- Embeds the flattening loop of `to_html_async_with_buf`
(lines 415-432): `Sync` chunks pass through, `Async` chunks are awaited
and their resolved chunks spliced in place, `OutOfOrder` chunks are
awaited and re-emitted at their original position wrapping an
immediately-ready inner future. -/
def flattenChunks : List StreamChunk → List StreamChunk
  | [] => []
  | StreamChunk.sync d :: rest => StreamChunk.sync d :: flattenChunks rest
  | StreamChunk.async cs :: rest => cs ++ flattenChunks rest
  | StreamChunk.outOfOrder cs :: rest => StreamChunk.outOfOrder cs :: flattenChunks rest

/-- The document-order text of a chunk sequence once every pending future
has resolved. -/
def chunksText : List StreamChunk → String
  | [] => ""
  | StreamChunk.sync t :: rest => t ++ chunksText rest
  | StreamChunk.async cs :: rest => chunksText cs ++ chunksText rest
  | StreamChunk.outOfOrder cs :: rest => chunksText cs ++ chunksText rest

/-- What the children contribute to one asynchronous serialization pass:
the chunks they emit into the scratch stream builder, the errors thrown
during the synchronous pass, the number of suspended-child receivers
registered beneath the boundary, and the errors thrown by those suspended
children before their receivers resolve. -/
structure ChildAsyncHtml where
  chunks : List StreamChunk
  thrown : List (ErrorId × ErrorVal)
  suspendedChildren : Nat
  suspenseThrown : List (ErrorId × ErrorVal)
deriving Repr

/-- Embeds `RenderHtml::to_html_async_with_buf` (lines 360-454): children
serialize into a scratch stream builder; if no suspended-child receivers
are registered, the registry is checked at once and either the scratch
buffer is appended or the fallback is pushed as one sync chunk; otherwise
a single async chunk is pushed which awaits every receiver, flattens the
scratch buffer's chunks in order, and then either emits them or replaces
them all by one sync fallback chunk, according to the registry after the
receivers resolved.  Returns the caller's builder and the final
registry. -/
def toHtmlAsyncWithBuf (child : ChildAsyncHtml) (fallbackHtml : String)
    (errs : Errors) (buf : StreamBuilder) : StreamBuilder × Errors :=
  let newBuf : StreamBuilder := ⟨child.chunks⟩
  let errsSync := errs.insertAll child.thrown
  if child.suspendedChildren == 0 then
    if errsSync.isEmpty then
      (buf.append newBuf, errsSync)
    else
      (buf.pushSync fallbackHtml, errsSync)
  else
    let errsFinal := errsSync.insertAll child.suspenseThrown
    let myChunks := flattenChunks newBuf.takeChunks
    let finalChunks :=
      if errsFinal.isEmpty then myChunks else [StreamChunk.sync fallbackHtml]
    (buf.append ⟨[StreamChunk.async finalChunks]⟩, errsFinal)

/-! ## Helper lemmas -/

theorem Errors.insert_isEmpty_false (e : Errors) (k : ErrorId) (v : ErrorVal) :
    (e.insert k v).isEmpty = false := by
  unfold Errors.insert
  split
  · rename_i h
    unfold Errors.containsKey at h
    rw [List.any_eq_true] at h
    obtain ⟨p, hp, _⟩ := h
    cases he : e.entries with
    | nil => rw [he] at hp; cases hp
    | cons a t => simp [Errors.isEmpty, he]
  · simp [Errors.isEmpty]

theorem Errors.insertAll_isEmpty_false (l : List (ErrorId × ErrorVal)) :
    ∀ (e : Errors), l ≠ [] → (e.insertAll l).isEmpty = false := by
  induction l with
  | nil => intro e h; exact absurd rfl h
  | cons p rest ih =>
    intro e _
    show (Errors.insertAll (e.insert p.1 p.2) rest).isEmpty = false
    cases hr : rest with
    | nil =>
      show ((e.insert p.1 p.2).insertAll []).isEmpty = false
      exact Errors.insert_isEmpty_false e p.1 p.2
    | cons q t =>
      rw [← hr]
      exact ih (e.insert p.1 p.2) (by rw [hr]; exact List.cons_ne_nil q t)

theorem chunksText_append (a b : List StreamChunk) :
    chunksText (a ++ b) = chunksText a ++ chunksText b := by
  induction a with
  | nil => simp [chunksText]
  | cons c rest ih =>
    cases c with
    | sync t => simp [chunksText, ih, String.append_assoc]
    | async cs => simp [chunksText, ih, String.append_assoc]
    | outOfOrder cs => simp [chunksText, ih, String.append_assoc]

theorem chunksText_flattenChunks (cs : List StreamChunk) :
    chunksText (flattenChunks cs) = chunksText cs := by
  induction cs with
  | nil => rfl
  | cons c rest ih =>
    cases c with
    | sync t => simp [flattenChunks, chunksText, ih]
    | async inner => simp [flattenChunks, chunksText_append, chunksText, ih]
    | outOfOrder inner => simp [flattenChunks, chunksText, ih]

theorem transitionStep_preserves_exclusive (e : Errors) (s : ErrorBoundaryViewState)
    (h : s.exclusivelyMounted = true) :
    (transitionStep e s).1.exclusivelyMounted = true := by
  obtain ⟨cm, fb⟩ := s
  cases he : e.isEmpty <;> cases fb <;>
    simp_all [transitionStep, ErrorBoundaryViewState.exclusivelyMounted]

theorem runTransitions_preserves_exclusive (updates : List Errors) :
    ∀ (s : ErrorBoundaryViewState), s.exclusivelyMounted = true →
      (runTransitions s updates).exclusivelyMounted = true := by
  induction updates with
  | nil => intro s h; exact h
  | cons e rest ih =>
    intro s h
    exact ih (transitionStep e s).1 (transitionStep_preserves_exclusive e s h)

theorem buildRun_mount_exclusive (errs : Errors) :
    (buildRun errs).1.mountOp.1.exclusivelyMounted = true := by
  cases h : errs.isEmpty <;>
    simp [buildRun, h, ErrorBoundaryViewState.mountOp,
      ErrorBoundaryViewState.exclusivelyMounted]

/-! ## Claim theorems -/

/-- C9: `clear(id)` removes the entry for `id` if present, leaves every
other entry untouched, is a no-op when `id` is absent, and is
idempotent — both for `Errors::remove` and for the hook's `clear`. -/
theorem clear_remove_idempotent (e : Errors) (id : ErrorId) :
    (e.remove id).containsKey id = false
    ∧ (∀ p : ErrorId × ErrorVal, p.1 ≠ id → (p ∈ (e.remove id).entries ↔ p ∈ e.entries))
    ∧ (e.containsKey id = false → e.remove id = e)
    ∧ (e.remove id).remove id = e.remove id
    ∧ (∀ h : ErrorBoundaryErrorHook, (h.clear id).errors = h.errors.remove id
        ∧ (h.clear id).clear id = h.clear id) := by
  refine ⟨?_, ?_, ?_, ?_, ?_⟩
  · simp [Errors.remove, Errors.containsKey, List.any_eq_true, List.mem_filter]
  · intro p hp
    simp [Errors.remove, List.mem_filter, hp]
  · intro h
    unfold Errors.containsKey at h
    rw [List.any_eq_false] at h
    show Errors.mk _ = e
    rw [List.filter_eq_self.mpr]
    intro a ha
    have := h a ha
    simpa using this
  · simp [Errors.remove, List.filter_filter]
  · intro h
    refine ⟨rfl, ?_⟩
    simp [ErrorBoundaryErrorHook.clear, Errors.remove, List.filter_filter]

/-- C8: `throw(error)` is total and performs exactly: it takes a fresh
identity from the current scope's generator if one exists (else the
default identity), forwards `(boundary_id, key, error)` to the hook's
cross-boundary context when present, inserts `(key, error)` into the
registry, and returns that identity. -/
theorem throw_characterization (hook : ErrorBoundaryErrorHook)
    (scope : Option SharedContext) (error : ErrorVal) :
    (hook.throw scope error).key =
      (match scope with
       | some sc => sc.nextId.1
       | none => defaultErrorId)
    ∧ (hook.throw scope error).hook.errors =
        hook.errors.insert (hook.throw scope error).key error
    ∧ (hook.throw scope error).hook.id = hook.id
    ∧ (match hook.sharedContext with
       | some sc => (hook.throw scope error).hook.sharedContext =
           some (sc.registerError hook.id (hook.throw scope error).key error)
       | none => (hook.throw scope error).hook.sharedContext = none)
    ∧ (hook.throw scope error).scope =
        (match scope with
         | some sc => some sc.nextId.2
         | none => none) := by
  obtain ⟨errs, bid, sctx⟩ := hook
  cases scope <;> cases sctx <;>
    simp [ErrorBoundaryErrorHook.throw]

/-- C6: in both hydration variants the initial presentation is chosen from
the registry: empty registry hydrates the children against the markup with
no fallback; non-empty registry builds the children off-DOM and hydrates
the fallback against the markup; the async variant makes the same
decision. -/
theorem hydrate_initial_presentation (errs : Errors) :
    (errs.isEmpty = true →
      hydrateInitial errs = ⟨BuildMode.hydratedFromMarkup, none⟩)
    ∧ (errs.isEmpty = false →
      hydrateInitial errs =
        ⟨BuildMode.builtOffDom, some BuildMode.hydratedFromMarkup⟩)
    ∧ hydrateAsyncInitial errs = hydrateInitial errs := by
  cases h : errs.isEmpty <;>
    simp [hydrateInitial, hydrateAsyncInitial, h]

/-- C2: synchronous serialization appends exactly the fallback's
serialization when the registry ends non-empty, exactly the children's
serialization when it ends empty, and never a mix, because the children
are serialized into a scratch buffer before the decision. -/
theorem to_html_no_partial_mix (child : ChildSyncHtml) (fb : String)
    (errs : Errors) (buf : String) :
    ((toHtmlWithBuf child fb errs buf).2.isEmpty = false →
      (toHtmlWithBuf child fb errs buf).1 = buf ++ fb)
    ∧ ((toHtmlWithBuf child fb errs buf).2.isEmpty = true →
      (toHtmlWithBuf child fb errs buf).1 = buf ++ child.html)
    ∧ ((toHtmlWithBuf child fb errs buf).1 = buf ++ child.html ∨
       (toHtmlWithBuf child fb errs buf).1 = buf ++ fb)
    ∧ (toHtmlWithBuf child fb errs buf).2 = errs.insertAll child.thrown := by
  unfold toHtmlWithBuf
  cases h : (errs.insertAll child.thrown).isEmpty <;> simp [h]

/-- C1: every reactive re-run of the transition step implements the
four-row table: empty registry while showing the fallback splices the
children before the fallback's position, unmounts the fallback and stores
none; non-empty registry while showing the children builds a fallback from
the current registry, splices it before the children's position and
unmounts the children; the two remaining rows are no-ops performing no
mount or unmount calls. -/
theorem transition_table_four_rows (errs : Errors) (st : ErrorBoundaryViewState) :
    (errs.isEmpty = true → st.fallback.isSome = true →
      transitionStep errs st =
        (⟨true, none⟩,
         [MCall.spliceBefore Side.fallbackSide Side.childrenSide,
          MCall.unmountCall Side.fallbackSide]))
    ∧ (errs.isEmpty = false → st.fallback = none →
      transitionStep errs st =
        (⟨false, some ⟨errs, true⟩⟩,
         [MCall.buildFallbackCall,
          MCall.spliceBefore Side.childrenSide Side.fallbackSide,
          MCall.unmountCall Side.childrenSide]))
    ∧ (errs.isEmpty = true → st.fallback = none →
      transitionStep errs st = (st, []))
    ∧ (errs.isEmpty = false → st.fallback.isSome = true →
      transitionStep errs st = (st, []))
    ∧ ((errs.isEmpty = true ∧ st.fallback = none) ∨
        (errs.isEmpty = false ∧ st.fallback.isSome = true) →
      ∀ c ∈ (transitionStep errs st).2, c.isMount = false ∧ c.isUnmount = false) := by
  obtain ⟨cm, fb⟩ := st
  cases he : errs.isEmpty <;> cases fb <;>
    simp [transitionStep, he]

/-- C4: on the very first build the state has a fallback iff the registry
is non-empty at that moment; the children are built in either case; a
pre-populated registry (as produced by `ErrorBoundaryErrorHook::new` with
server-recorded errors) shows the fallback immediately, and no reactive
update cycle is needed: re-running the step with the same registry changes
nothing. -/
theorem first_build_fallback_iff_nonempty (errs : Errors) :
    ((buildRun errs).1.fallback.isSome = true ↔ errs.isEmpty = false)
    ∧ (errs.isEmpty = false → (buildRun errs).1.fallback = some ⟨errs, false⟩
        ∧ (buildRun errs).1.target = Side.fallbackSide
        ∧ MCall.buildFallbackCall ∈ (buildRun errs).2)
    ∧ (errs.isEmpty = true → (buildRun errs).1.fallback = none
        ∧ (buildRun errs).1.target = Side.childrenSide
        ∧ MCall.buildFallbackCall ∉ (buildRun errs).2)
    ∧ MCall.buildChildrenCall ∈ (buildRun errs).2
    ∧ transitionStep errs (buildRun errs).1 = ((buildRun errs).1, [])
    ∧ (∀ (bid : SerializedDataId) (init : List (ErrorId × ErrorVal))
        (ctx : Option SharedContext), init ≠ [] →
        (ErrorBoundaryErrorHook.new bid init ctx).errors.isEmpty = false) := by
  refine ⟨?_, ?_, ?_, ?_, ?_, ?_⟩
  · cases h : errs.isEmpty <;> simp [buildRun, h]
  · intro h
    simp [buildRun, h, ErrorBoundaryViewState.target]
  · intro h
    simp [buildRun, h, ErrorBoundaryViewState.target]
  · cases h : errs.isEmpty <;> simp [buildRun, h]
  · cases h : errs.isEmpty <;> simp [buildRun, transitionStep, h]
  · intro bid init ctx hinit
    exact Errors.insertAll_isEmpty_false init Errors.empty hinit

/-- C5: every `Mountable` operation of the built state dispatches to the
fallback when it is present and to the children otherwise, never touching
the other side; every transition row unmounts one side in the same step in
which it splices the other in; and along any reactive run started from a
freshly built and mounted boundary, exactly one of the child state and the
fallback state is visibly mounted. -/
theorem mounted_exclusivity_invariant (st : ErrorBoundaryViewState)
    (errs0 : Errors) (updates : List Errors) :
    (st.mountOp.2 = MCall.mountCall st.target
      ∧ st.unmountOp.2 = MCall.unmountCall st.target
      ∧ st.insertBeforeThisOp = st.target
      ∧ st.elementsOp = st.target
      ∧ (st.target = Side.fallbackSide ↔ st.fallback.isSome = true))
    ∧ (st.fallback.isSome = true →
        st.mountOp.1.childMounted = st.childMounted
        ∧ st.unmountOp.1.childMounted = st.childMounted)
    ∧ (st.fallback = none →
        st.mountOp.1.fallback = none ∧ st.unmountOp.1.fallback = none)
    ∧ (∀ (e : Errors) (s : ErrorBoundaryViewState),
        s.exclusivelyMounted = true →
        (transitionStep e s).1.exclusivelyMounted = true)
    ∧ (∀ (e : Errors) (s : ErrorBoundaryViewState) (a b : Side),
        MCall.spliceBefore a b ∈ (transitionStep e s).2 →
        a ≠ b ∧ MCall.unmountCall a ∈ (transitionStep e s).2)
    ∧ (runTransitions (buildRun errs0).1.mountOp.1 updates).exclusivelyMounted
        = true := by
  refine ⟨?_, ?_, ?_, ?_, ?_, ?_⟩
  · obtain ⟨cm, fb⟩ := st
    cases fb <;>
      simp [ErrorBoundaryViewState.mountOp, ErrorBoundaryViewState.unmountOp,
        ErrorBoundaryViewState.insertBeforeThisOp,
        ErrorBoundaryViewState.elementsOp, ErrorBoundaryViewState.target]
  · intro h
    obtain ⟨cm, fb⟩ := st
    cases fb <;> simp_all [ErrorBoundaryViewState.mountOp,
      ErrorBoundaryViewState.unmountOp]
  · intro h
    obtain ⟨cm, fb⟩ := st
    cases fb <;> simp_all [ErrorBoundaryViewState.mountOp,
      ErrorBoundaryViewState.unmountOp]
  · exact fun e s h => transitionStep_preserves_exclusive e s h
  · intro e s a b hmem
    obtain ⟨cm, fb⟩ := s
    cases he : e.isEmpty <;> cases fb <;>
      simp_all [transitionStep]
  · exact runTransitions_preserves_exclusive updates _
      (buildRun_mount_exclusive errs0)

/-- C10: `rebuild` never diffs against the previous state: the state it
installs is exactly a fresh `build` result spliced in (independent of the
old state), the children are re-built, and the old state's visible side is
unmounted. -/
theorem rebuild_fresh_state (errs : Errors) (old old2 : ErrorBoundaryViewState) :
    ((rebuildRun errs old).1 = (rebuildRun errs old2).1)
    ∧ (rebuildRun errs old).1 = (buildRun errs).1.mountOp.1
    ∧ MCall.buildChildrenCall ∈ (rebuildRun errs old).2.2
    ∧ (old.exclusivelyMounted = true →
        (rebuildRun errs old).2.1.exclusivelyMounted = false) := by
  refine ⟨rfl, rfl, ?_, ?_⟩
  · cases h : errs.isEmpty <;> simp [rebuildRun, buildRun, h]
  · intro h
    obtain ⟨cm, fb⟩ := old
    cases fb <;>
      simp_all [rebuildRun, ErrorBoundaryViewState.unmountOp,
        ErrorBoundaryViewState.exclusivelyMounted]

/-- C7: with no suspended-child receivers registered, the asynchronous
path degenerates to the synchronous one: the children's chunks are
appended when the registry is empty, otherwise one sync chunk holding the
fallback's serialization is pushed, and the resolved text equals the
synchronous path's output on the corresponding child serialization. -/
theorem async_no_suspense_matches_sync (child : ChildAsyncHtml) (fb : String)
    (errs : Errors) (buf : StreamBuilder)
    (hs : child.suspendedChildren = 0) :
    chunksText (toHtmlAsyncWithBuf child fb errs buf).1.chunks =
      (toHtmlWithBuf ⟨chunksText child.chunks, child.thrown⟩ fb errs
        (chunksText buf.chunks)).1
    ∧ (toHtmlAsyncWithBuf child fb errs buf).2 =
      (toHtmlWithBuf ⟨chunksText child.chunks, child.thrown⟩ fb errs
        (chunksText buf.chunks)).2
    ∧ ((errs.insertAll child.thrown).isEmpty = true →
        (toHtmlAsyncWithBuf child fb errs buf).1 = buf.append ⟨child.chunks⟩)
    ∧ ((errs.insertAll child.thrown).isEmpty = false →
        (toHtmlAsyncWithBuf child fb errs buf).1 = buf.pushSync fb) := by
  cases h : (errs.insertAll child.thrown).isEmpty <;>
    simp [toHtmlAsyncWithBuf, toHtmlWithBuf, hs, h, StreamBuilder.append,
      StreamBuilder.pushSync, chunksText_append, chunksText]

/-- C3: with at least one suspended-child receiver, the registry-emptiness
decision is made only after every receiver is awaited (so it sees the
errors those children throw); the children's chunks are flattened in
document order (sync chunks pass through, async chunks are spliced in
place, out-of-order chunks are re-emitted at their original position); a
non-empty registry discards all flattened chunks for a single sync
fallback chunk; and flattening preserves the document-order text. -/
theorem async_awaits_before_decision (child : ChildAsyncHtml) (fb : String)
    (errs : Errors) (buf : StreamBuilder)
    (hs : child.suspendedChildren ≠ 0) :
    (toHtmlAsyncWithBuf child fb errs buf).2 =
      (errs.insertAll child.thrown).insertAll child.suspenseThrown
    ∧ (toHtmlAsyncWithBuf child fb errs buf).1.chunks =
        buf.chunks ++ [StreamChunk.async
          (if ((errs.insertAll child.thrown).insertAll
                child.suspenseThrown).isEmpty
           then flattenChunks child.chunks
           else [StreamChunk.sync fb])]
    ∧ (((errs.insertAll child.thrown).insertAll child.suspenseThrown).isEmpty
          = false →
        (toHtmlAsyncWithBuf child fb errs buf).1.chunks =
          buf.chunks ++ [StreamChunk.async [StreamChunk.sync fb]])
    ∧ (∀ (d : String) (t : List StreamChunk),
        flattenChunks (StreamChunk.sync d :: t) =
          StreamChunk.sync d :: flattenChunks t)
    ∧ (∀ (cs t : List StreamChunk),
        flattenChunks (StreamChunk.async cs :: t) = cs ++ flattenChunks t)
    ∧ (∀ (cs t : List StreamChunk),
        flattenChunks (StreamChunk.outOfOrder cs :: t) =
          StreamChunk.outOfOrder cs :: flattenChunks t)
    ∧ (∀ cs : List StreamChunk,
        chunksText (flattenChunks cs) = chunksText cs) := by
  refine ⟨?_, ?_, ?_, ?_, ?_, ?_, ?_⟩
  · simp [toHtmlAsyncWithBuf, hs]
  · simp [toHtmlAsyncWithBuf, hs, StreamBuilder.append, StreamBuilder.takeChunks]
  · intro h
    simp [toHtmlAsyncWithBuf, hs, h, StreamBuilder.append,
      StreamBuilder.takeChunks]
  · intro d t; simp [flattenChunks]
  · intro cs t; simp [flattenChunks]
  · intro cs t; simp [flattenChunks]
  · exact chunksText_flattenChunks

/-! ## Witnesses: the claim theorems evaluated at concrete inputs -/

/-- C1 witness: a concrete registry-emptied re-run while the fallback is
showing splices the children in and unmounts the fallback. -/
theorem transition_table_four_rows_witness :
    transitionStep ⟨[]⟩ ⟨false, some ⟨⟨[(0, 5)]⟩, true⟩⟩ =
      (⟨true, none⟩,
       [MCall.spliceBefore Side.fallbackSide Side.childrenSide,
        MCall.unmountCall Side.fallbackSide]) :=
  (transition_table_four_rows ⟨[]⟩ ⟨false, some ⟨⟨[(0, 5)]⟩, true⟩⟩).1 rfl rfl

/-- C2 witness: children that throw during serialization yield exactly the
fallback's serialization appended to the caller's buffer. -/
theorem to_html_no_partial_mix_witness :
    (toHtmlWithBuf ⟨"c", [(0, 1)]⟩ "f" Errors.empty "b").1 = "b" ++ "f" :=
  (to_html_no_partial_mix ⟨"c", [(0, 1)]⟩ "f" Errors.empty "b").1 rfl

/-- C3 witness: with one suspended-child receiver whose child throws, the
final registry seen by the decision contains that error. -/
theorem async_awaits_before_decision_witness :
    (toHtmlAsyncWithBuf ⟨[StreamChunk.sync "a"], [], 1, [(0, 7)]⟩ "f"
      Errors.empty ⟨[]⟩).2 =
      (Errors.empty.insertAll []).insertAll [(0, 7)] :=
  (async_awaits_before_decision ⟨[StreamChunk.sync "a"], [], 1, [(0, 7)]⟩ "f"
    Errors.empty ⟨[]⟩ (by decide)).1

/-- C4 witness: a pre-populated registry builds the fallback on the very
first build. -/
theorem first_build_fallback_iff_nonempty_witness :
    (buildRun ⟨[(0, 3)]⟩).1.fallback = some ⟨⟨[(0, 3)]⟩, false⟩
    ∧ (buildRun ⟨[(0, 3)]⟩).1.target = Side.fallbackSide
    ∧ MCall.buildFallbackCall ∈ (buildRun ⟨[(0, 3)]⟩).2 :=
  (first_build_fallback_iff_nonempty ⟨[(0, 3)]⟩).2.1 rfl

/-- C5 witness: with the fallback present, mounting and unmounting do not
touch the children's mounted flag. -/
theorem mounted_exclusivity_invariant_witness :
    (ErrorBoundaryViewState.mk false (some ⟨Errors.empty, true⟩)).mountOp.1.childMounted
        = (ErrorBoundaryViewState.mk false (some ⟨Errors.empty, true⟩)).childMounted
    ∧ (ErrorBoundaryViewState.mk false (some ⟨Errors.empty, true⟩)).unmountOp.1.childMounted
        = (ErrorBoundaryViewState.mk false (some ⟨Errors.empty, true⟩)).childMounted :=
  (mounted_exclusivity_invariant ⟨false, some ⟨Errors.empty, true⟩⟩
    Errors.empty []).2.1 rfl

/-- C6 witness: a non-empty registry hydrates the fallback against the
markup and builds the children off-DOM. -/
theorem hydrate_initial_presentation_witness :
    hydrateInitial ⟨[(0, 1)]⟩ =
      ⟨BuildMode.builtOffDom, some BuildMode.hydratedFromMarkup⟩ :=
  (hydrate_initial_presentation ⟨[(0, 1)]⟩).2.1 rfl

/-- C7 witness: with no receivers and no errors, the children's chunks are
appended unchanged. -/
theorem async_no_suspense_matches_sync_witness :
    (toHtmlAsyncWithBuf ⟨[StreamChunk.sync "a"], [], 0, []⟩ "f"
      Errors.empty ⟨[]⟩).1 =
      StreamBuilder.append ⟨[]⟩ ⟨[StreamChunk.sync "a"]⟩ :=
  (async_no_suspense_matches_sync ⟨[StreamChunk.sync "a"], [], 0, []⟩ "f"
    Errors.empty ⟨[]⟩ rfl).2.2.1 rfl

/-- C8 witness: with a scope whose generator is at 7, `throw` returns
identity 7. -/
theorem throw_characterization_witness :
    (ErrorBoundaryErrorHook.throw ⟨Errors.empty, 9, some ⟨4, []⟩⟩
      (some ⟨7, []⟩) 42).key = 7 :=
  (throw_characterization ⟨Errors.empty, 9, some ⟨4, []⟩⟩ (some ⟨7, []⟩) 42).1

/-- C9 witness: clearing a never-inserted identity leaves the registry
unchanged. -/
theorem clear_remove_idempotent_witness :
    Errors.remove ⟨[(1, 2)]⟩ 0 = ⟨[(1, 2)]⟩ :=
  (clear_remove_idempotent ⟨[(1, 2)]⟩ 0).2.2.1 rfl

/-- C10 witness: rebuilding from a mounted-children state leaves the old
state with nothing visibly mounted. -/
theorem rebuild_fresh_state_witness :
    (rebuildRun ⟨[]⟩ ⟨true, none⟩).2.1.exclusivelyMounted = false :=
  (rebuild_fresh_state ⟨[]⟩ ⟨true, none⟩ ⟨false, some ⟨Errors.empty, true⟩⟩).2.2.2 rfl

end LeptosEB
